import Mathlib

/-!
Verification development for the Evolution artificial-life simulator.

The JavaScript sources (src/js/dna.js, src/js/evolution.js, src/js/creature.js,
src/js/physics.js) are shallowly embedded below.  JavaScript numbers are
modelled as rationals (exact arithmetic; the idealised real semantics the
specification itself uses), Math.random draws are threaded explicitly as
rational oracle values so that every theorem quantifies over all random
outcomes, and object mutation is rendered as explicit state passing on
immutable values.  Geometric quantities that the host computes with
transcendental functions (vector magnitudes, atan2 angles) enter the model as
explicit inputs of the embedded functions.
-/

namespace Evo

/-! ## JavaScript numeric primitives -/

/-- JS Math.floor on the rational model of JS numbers. -/
def jsFloor (q : ℚ) : ℤ := ⌊q⌋

/-- JS truncation toward zero, as used by the JS remainder operator. -/
def jsTrunc (q : ℚ) : ℤ := if 0 ≤ q then ⌊q⌋ else ⌈q⌉

/-- The JS remainder a % b: the sign follows the dividend. -/
def jsRem (a b : ℚ) : ℚ := a - b * (jsTrunc (a / b) : ℚ)

/-- JS Math.round: floor of the argument plus one half. -/
def jsRound (q : ℚ) : ℤ := ⌊q + 1/2⌋

/-- The clamp helper at the bottom of dna.js:
Math.max(min, Math.min(max, value)). -/
def clamp (value lo hi : ℚ) : ℚ := max lo (min hi value)

/-- Math.PI: the exact value of the IEEE-754 double that JS uses for pi. -/
def jsPI : ℚ := 884279719003555 / 281474976710656

/-- The JS idiom x || d on numbers: d when x is falsy (0), else x. -/
def jsOr (x d : ℚ) : ℚ := if x = 0 then d else x

/-! ## Indexed map helper

The JS for-loops draw fresh Math.random values at every iteration; mapping
with the element index lets the randomness oracle supply those draws. -/

def mapIdxFrom (f : ℕ → α → β) : ℕ → List α → List β
  | _, [] => []
  | i, a :: as => f i a :: mapIdxFrom f (i + 1) as

def mapIdx (f : ℕ → α → β) (l : List α) : List β := mapIdxFrom f 0 l

theorem length_mapIdxFrom (f : ℕ → α → β) (n : ℕ) (l : List α) :
    (mapIdxFrom f n l).length = l.length := by
  induction l generalizing n with
  | nil => rfl
  | cons a as ih => simp [mapIdxFrom, ih]

theorem length_mapIdx (f : ℕ → α → β) (l : List α) :
    (mapIdx f l).length = l.length := length_mapIdxFrom f 0 l

theorem getElem?_mapIdxFrom (f : ℕ → α → β) (n : ℕ) (l : List α) (i : ℕ) :
    (mapIdxFrom f n l)[i]? = (l[i]?).map (f (n + i)) := by
  induction l generalizing n i with
  | nil => simp [mapIdxFrom]
  | cons a as ih =>
    cases i with
    | zero => simp [mapIdxFrom]
    | succ j =>
      have harg : n + (j + 1) = (n + 1) + j := by omega
      simp only [mapIdxFrom, List.getElem?_cons_succ, ih (n + 1) j, harg]

theorem getElem?_mapIdx (f : ℕ → α → β) (l : List α) (i : ℕ) :
    (mapIdx f l)[i]? = (l[i]?).map (f i) := by
  simpa using getElem?_mapIdxFrom f 0 l i

theorem mem_mapIdx {f : ℕ → α → β} {l : List α} {b : β} :
    b ∈ mapIdx f l ↔ ∃ i a, l[i]? = some a ∧ f i a = b := by
  constructor
  · intro hb
    obtain ⟨i, hi, hget⟩ := List.getElem_of_mem hb
    have hil : i < l.length := by simpa [length_mapIdx] using hi
    refine ⟨i, l.get ⟨i, hil⟩, ?_, ?_⟩
    · exact List.getElem?_eq_getElem _
    · have := getElem?_mapIdx f l i
      rw [List.getElem?_eq_getElem hi] at this
      rw [List.getElem?_eq_getElem (l := l) (by simpa [length_mapIdx] using hi)] at this
      simp only [Option.map_some'] at this
      rw [← hget]
      exact (Option.some.inj this).symm
  · rintro ⟨i, a, hget, rfl⟩
    have hsome : (mapIdx f l)[i]? = some (f i a) := by
      rw [getElem?_mapIdx, hget]; rfl
    obtain ⟨hi, he⟩ := List.getElem?_eq_some.mp hsome
    exact he ▸ List.getElem_mem hi

/-! ## The genome (DNA) data model, from dna.js

The genome record returned by generateRandomDNA.  The constant controller
tag ({type: sensor-modulated}, never read anywhere) and the transient
creatureAge / savedAge annotations written by EvolutionManager.updateFitness
and deleted again on cloning are not part of the heritable genome and are
omitted.  Branch segments added by mutateDNA carry no isGripper property at
all, hence the Option on that field. -/

inductive Shape | circle | rectangle
deriving Repr, DecidableEq

inductive SType | eye | feeler
deriving Repr, DecidableEq

structure MotorPattern where
  amplitude : ℚ
  frequency : ℚ
  phase : ℚ
deriving Repr, DecidableEq

structure Segment where
  id : ℕ
  parentId : Option ℕ
  attachAngle : ℚ
  shape : Shape
  length : Option ℚ
  width : Option ℚ
  radius : Option ℚ
  mass : ℚ
  color : List ℚ
  isHeart : Bool
  isMouth : Bool
  isGripper : Option Bool
deriving Repr, DecidableEq

structure Joint where
  segA : ℕ
  segB : ℕ
  attachPointA : ℚ × ℚ
  attachPointB : ℚ × ℚ
  restLength : ℚ
  minLength : ℚ
  maxLength : ℚ
  stiffness : ℚ
  motorPattern : MotorPattern
deriving Repr, DecidableEq

structure Sensor where
  id : ℕ
  type : SType
  segmentId : ℕ
  angle : ℚ
  range : ℚ
  fov : ℚ
deriving Repr, DecidableEq

structure SMWeight where
  amplitudeMod : ℚ
  frequencyMod : ℚ
  phaseMod : ℚ
deriving Repr, DecidableEq

structure DNA where
  segments : List Segment
  joints : List Joint
  sensors : List Sensor
  sensorMotorWeights : List (List SMWeight)
  generation : ℕ
  fitness : ℚ
  baseHue : ℚ
  beauty : ℚ
  memorySize : ℕ
deriving Repr, DecidableEq

def dnaDefault : DNA :=
  { segments := [], joints := [], sensors := [], sensorMotorWeights := [],
    generation := 0, fitness := 0, baseHue := 0, beauty := 0, memorySize := 0 }

/-- cloneDNA from dna.js: JSON.parse(JSON.stringify(dna)).  The JSON round
trip yields a value-equal genome whose substructure is fully disjoint from
the source; in the value model a deep copy is therefore the identity. -/
def cloneDNA (dna : DNA) : DNA := dna

/-- randomColor from dna.js (the branch with a non-null baseHue, the only
one reached from mutateDNA), given the three Math.random draws it makes. -/
structure ColorRand where
  rHue : ℚ
  rSat : ℚ
  rLight : ℚ

def randomColor (baseHue : ℚ) (r : ColorRand) : List ℚ :=
  let hue := jsRem (baseHue + (r.rHue - 1/2) * 60) 360
  let saturation := 6/10 + r.rSat * (3/10)
  let lightness := 1/2 + r.rLight * (2/10)
  let c := (1 - |2 * lightness - 1|) * saturation
  let x := c * (1 - |jsRem (hue / 60) 2 - 1|)
  let m := lightness - c / 2
  let rgb : ℚ × ℚ × ℚ :=
    if hue < 60 then (c, x, 0)
    else if hue < 120 then (x, c, 0)
    else if hue < 180 then (0, c, x)
    else if hue < 240 then (0, x, c)
    else if hue < 300 then (x, 0, c)
    else (c, 0, x)
  [ (jsRound ((rgb.1 + m) * 255) : ℚ),
    (jsRound ((rgb.2.1 + m) * 255) : ℚ),
    (jsRound ((rgb.2.2 + m) * 255) : ℚ) ]

/-! ## mutateDNA from dna.js

Every Math.random() call of the source is an explicit rational oracle value.
Fields named p... are the trial draws compared against the mutation rate,
fields named r... are the perturbation draws. -/

structure SegRand where
  pDims : ℚ
  rDimA : ℚ
  rDimB : ℚ
  pMass : ℚ
  rMass : ℚ
  pColor : ℚ
  rColor : ℕ → ℚ
  pGrip : ℚ

structure JointRand where
  pRest : ℚ
  rRest : ℚ
  pStiff : ℚ
  rStiff : ℚ
  pAmp : ℚ
  rAmp : ℚ
  pFreq : ℚ
  rFreq : ℚ
  pPhase : ℚ
  rPhase : ℚ

structure SensorRand where
  pAngle : ℚ
  rAngle : ℚ
  pRange : ℚ
  rRange : ℚ
  pFov : ℚ
  rFov : ℚ

structure WRand where
  pAmp : ℚ
  rAmp : ℚ
  pFreq : ℚ
  rFreq : ℚ
  pPhase : ℚ
  rPhase : ℚ

structure NewSensorRand where
  rEye : ℚ
  rSeg : ℚ
  rAngle : ℚ
  rRange : ℚ
  rFov : ℚ
  w : ℕ → ℚ × ℚ × ℚ

structure NewBranchRand where
  rParent : ℚ
  rCircle : ℚ
  rAngle : ℚ
  rDimA : ℚ
  rDimB : ℚ
  rMass : ℚ
  color : ColorRand
  rMouth : ℚ
  rRest : ℚ
  rStiff : ℚ
  rAmpl : ℚ
  rFreq : ℚ
  rPhase : ℚ
  w : ℕ → ℚ × ℚ × ℚ

structure MutRand where
  seg : ℕ → SegRand
  pBeauty : ℚ
  rBeauty : ℚ
  joint : ℕ → JointRand
  sensor : ℕ → SensorRand
  weight : ℕ → ℕ → WRand
  pAddSensor : ℚ
  newSensor : NewSensorRand
  pAddBranch : ℚ
  newBranch : NewBranchRand

/-- The per-segment block of the first for-loop of mutateDNA: dimension,
mass and color perturbations plus the gripper toggle.  The beauty argument
is the (not yet mutated) beauty of the genome, exactly as the source reads
mutated.beauty before the beauty mutation below. -/
def mutateSegment (rate beauty : ℚ) (r : SegRand) (seg : Segment) : Segment :=
  let seg :=
    if r.pDims < rate then
      if seg.shape = Shape.circle then
        { seg with radius := some (clamp (seg.radius.getD 0 + (r.rDimA - 1/2) * 10) 5 30) }
      else
        { seg with
            length := some (clamp (seg.length.getD 0 + (r.rDimA - 1/2) * 15) 15 70),
            width := some (clamp (seg.width.getD 0 + (r.rDimB - 1/2) * 6) 5 25) }
    else seg
  let seg :=
    if r.pMass < rate then
      { seg with mass := clamp (seg.mass + (r.rMass - 1/2) * (1/2)) (3/10) 3 }
    else seg
  let seg :=
    if r.pColor < rate * (1/2) then
      let beautyShift := (beauty - 1/2) * 50
      { seg with color := mapIdx (fun i c =>
          clamp (c + (jsFloor ((r.rColor i - 1/2) * 40 + beautyShift) : ℚ)) 0 255) seg.color }
    else seg
  match seg.isGripper with
  | some g => if r.pGrip < rate * (1/10) then { seg with isGripper := some (!g) } else seg
  | none => seg

/-- The per-joint block of mutateDNA: rest length, stiffness and the three
motor-pattern fields. -/
def mutateJoint (rate : ℚ) (r : JointRand) (j : Joint) : Joint :=
  let j := if r.pRest < rate then
      { j with restLength := clamp (j.restLength + (r.rRest - 1/2) * 10) 5 60 } else j
  let j := if r.pStiff < rate then
      { j with stiffness := clamp (j.stiffness + (r.rStiff - 1/2) * (2/10)) (1/10) (9/10) } else j
  let mp := j.motorPattern
  let mp := if r.pAmp < rate * (3/2) then
      { mp with amplitude := clamp (mp.amplitude + (r.rAmp - 1/2) * 4) 0 15 } else mp
  let mp := if r.pFreq < rate * (3/2) then
      { mp with frequency := clamp (mp.frequency + (r.rFreq - 1/2) * 1) (1/10) 4 } else mp
  let mp := if r.pPhase < rate * (3/2) then
      { mp with phase := mp.phase + (r.rPhase - 1/2) * jsPI * (1/2) } else mp
  { j with motorPattern := mp }

/-- The per-sensor block of mutateDNA: angle, range, and field of view for
eyes. -/
def mutateSensor (rate : ℚ) (r : SensorRand) (s : Sensor) : Sensor :=
  let s := if r.pAngle < rate then { s with angle := s.angle + (r.rAngle - 1/2) * (1/2) } else s
  let s := if r.pRange < rate then
      { s with range := clamp (s.range + (r.rRange - 1/2) * 30) 20 300 } else s
  if s.type = SType.eye ∧ r.pFov < rate then
    { s with fov := clamp (s.fov + (r.rFov - 1/2) * 20) 10 120 } else s

/-- The per-entry block of the sensor-motor weight mutation (trial rate
doubled for faster behaviour evolution). -/
def mutateWeight (rate : ℚ) (r : WRand) (w : SMWeight) : SMWeight :=
  let w := if r.pAmp < rate * 2 then
      { w with amplitudeMod := clamp (w.amplitudeMod + (r.rAmp - 1/2) * (4/10)) (-2) 2 } else w
  let w := if r.pFreq < rate * 2 then
      { w with frequencyMod := clamp (w.frequencyMod + (r.rFreq - 1/2) * (2/10)) (-1) 1 } else w
  if r.pPhase < rate * 2 then
    { w with phaseMod := clamp (w.phaseMod + (r.rPhase - 1/2) * (2/10)) (-1) 1 } else w

/-- The rare add-new-sensor block of mutateDNA: appends a sensor (capped at
5 sensors) together with a fresh weight row holding one entry per joint. -/
def addSensorPhase (rate pAdd : ℚ) (r : NewSensorRand) (d : DNA) : DNA :=
  if pAdd < rate * (5/100) ∧ d.sensors.length < 5 then
    let isEye := r.rEye < 6/10
    let newSensor : Sensor :=
      { id := d.sensors.length,
        type := if isEye then SType.eye else SType.feeler,
        segmentId := (jsFloor (r.rSeg * d.segments.length)).toNat,
        angle := (r.rAngle - 1/2) * jsPI,
        range := if isEye then 100 + r.rRange * 100 else 30 + r.rRange * 30,
        fov := if isEye then 40 + r.rFov * 40 else 0 }
    let newRow := mapIdx (fun j _ =>
      ({ amplitudeMod := ((r.w j).1 - 1/2) * 2,
         frequencyMod := ((r.w j).2.1 - 1/2) * 1,
         phaseMod := ((r.w j).2.2 - 1/2) * (1/2) } : SMWeight)) d.joints
    { d with sensors := d.sensors ++ [newSensor],
             sensorMotorWeights := d.sensorMotorWeights ++ [newRow] }
  else d

/-- The rare add-branch block of mutateDNA: appends a branch segment (capped
at 8 segments) with its joint, and a matching weight column on every row.
The appended segment carries no isGripper property, matching the source
object literal. -/
def addBranchPhase (rate pAdd : ℚ) (r : NewBranchRand) (d : DNA) : DNA :=
  if pAdd < rate * (8/100) ∧ d.segments.length < 8 then
    let parentIdx := (jsFloor (r.rParent * d.segments.length)).toNat
    let newId := d.segments.length
    let isCircle := r.rCircle < 3/10
    let newSeg : Segment :=
      { id := newId,
        parentId := some parentIdx,
        attachAngle := (r.rAngle - 1/2) * jsPI,
        shape := if isCircle then Shape.circle else Shape.rectangle,
        length := if isCircle then none else some (20 + r.rDimA * 25),
        width := if isCircle then none else some (6 + r.rDimB * 10),
        radius := if isCircle then some (8 + r.rDimA * 12) else none,
        mass := 1/2 + r.rMass * 1,
        color := randomColor d.baseHue r.color,
        isHeart := false,
        isMouth := r.rMouth < 3/10,
        isGripper := none }
    let newJoint : Joint :=
      { segA := parentIdx, segB := newId,
        attachPointA := (0, 0), attachPointB := (0, 10),
        restLength := 15 + r.rRest * 15,
        minLength := 8, maxLength := 40,
        stiffness := 3/10 + r.rStiff * (4/10),
        motorPattern :=
          { amplitude := 2 + r.rAmpl * 6,
            frequency := 1/2 + r.rFreq * 2,
            phase := r.rPhase * jsPI * 2 } }
    { d with
        segments := d.segments ++ [newSeg],
        joints := d.joints ++ [newJoint],
        sensorMotorWeights := mapIdx (fun s row => row ++
          [({ amplitudeMod := ((r.w s).1 - 1/2) * 2,
              frequencyMod := ((r.w s).2.1 - 1/2) * 1,
              phaseMod := ((r.w s).2.2 - 1/2) * (1/2) } : SMWeight)]) d.sensorMotorWeights }
  else d

/-- The non-structural phases of mutateDNA, in source order: the segment
loop, the beauty mutation, the joint loop, the sensor loop and the weight
loop.  The source first deep-copies the input via cloneDNA and mutates only
the copy.  The sensor and weight blocks are guarded by
`if (mutated.sensors)` and `if (mutated.sensorMotorWeights)` in the source,
which are always true for a genome (a JS array, even empty, is truthy), so
they are unconditional here. -/
def mutateCore (rate : ℚ) (r : MutRand) (dna : DNA) : DNA :=
  let mutated := cloneDNA dna
  let mutated := { mutated with
    segments := mapIdx (fun i s => mutateSegment rate mutated.beauty (r.seg i) s) mutated.segments }
  let mutated := if r.pBeauty < rate then
      { mutated with beauty := clamp (mutated.beauty + (r.rBeauty - 1/2) * (2/10)) 0 1 }
    else mutated
  let mutated := { mutated with
    joints := mapIdx (fun i j => mutateJoint rate (r.joint i) j) mutated.joints }
  let mutated := { mutated with
    sensors := mapIdx (fun i s => mutateSensor rate (r.sensor i) s) mutated.sensors }
  { mutated with
    sensorMotorWeights := mapIdx (fun s row =>
      mapIdx (fun j w => mutateWeight rate (r.weight s j) w) row) mutated.sensorMotorWeights }

/-- mutateDNA from dna.js: the per-field mutation loops followed by the two
rare structural mutations, in source order. -/
def mutateDNA (dna : DNA) (rate : ℚ) (r : MutRand) : DNA :=
  addBranchPhase rate r.pAddBranch r.newBranch
    (addSensorPhase rate r.pAddSensor r.newSensor (mutateCore rate r dna))

/-! ## crossoverDNA from dna.js -/

structure CrossRand where
  pBase : ℚ
  pJoint : ℕ → ℚ
  rHue : ℚ

/-- crossoverDNA: clone one parent wholesale, then for each joint index
below the minimum of the three joint counts copy the motor pattern from a
randomly chosen parent, and blend the base hue. -/
def crossoverDNA (dna1 dna2 : DNA) (r : CrossRand) : DNA :=
  let child := cloneDNA (if r.pBase < 1/2 then dna1 else dna2)
  let minJoints := min (min child.joints.length dna1.joints.length) dna2.joints.length
  let newJoints := mapIdx (fun i j =>
    if i < minJoints then
      let source := if r.pJoint i < 1/2 then dna1 else dna2
      match source.joints[i]? with
      | some sj => { j with motorPattern := sj.motorPattern }
      | none => j
    else j) child.joints
  { child with joints := newJoints,
               baseHue := (dna1.baseHue + dna2.baseHue) / 2 + (r.rHue - 1/2) * 30 }

/-! ## Creature runtime state, from creature.js

The embedded record holds the runtime fields that the metabolic, combat and
lifecycle operations read or write.  Physics-world entities (bodies,
constraints, sensor body references) live in the external Matter.js
collaborator; the update steps that only touch those entities (constraint
pruning, sensor reads, motor modulation, sticky feet, gripper hook) do not
touch any field below, and the memory update consumes the freshly computed
sensor readings, which therefore enter update as an explicit input. -/

inductive CState | alive | dead
deriving Repr, DecidableEq

inductive DeathCause | starvation | combat
deriving Repr, DecidableEq

structure Creature where
  state : CState
  food : ℚ
  health : ℚ
  age : ℚ
  simTime : ℚ
  deathTime : ℚ
  fadeAlpha : ℚ
  canDestroy : Bool
  deathCause : Option DeathCause
  lastReproductionTime : ℚ
  damageDealt : ℚ
  damageTaken : ℚ
  kills : ℕ
  powerUpsCollected : ℕ
  memory : List ℚ
deriving Repr, DecidableEq

def Creature.isAlive (c : Creature) : Bool := c.state != CState.dead

/-- Creature.die(killer, cause).  The killer is another heap object mutated
through its reference; the model returns its updated value alongside the
victim.  The body-friction changes and the window.simulation event callback
touch only the external world and are not part of the record. -/
def die (c : Creature) (killer : Option Creature) (cause : DeathCause) :
    Creature × Option Creature :=
  if c.state = CState.dead then (c, killer)
  else
    let c := { c with state := CState.dead, food := 0, health := 0,
                      deathTime := 0, deathCause := some cause }
    let killer := killer.map (fun k => { k with kills := k.kills + 1, health := 200, food := 200 })
    (c, killer)

/-- Creature.takeDamage(amount, attacker).  Damage reduces health only; a
lethal hit caps health at 0 and calls die with cause combat.  The attacker
accumulates damageDealt and, through die, the kill reward. -/
def takeDamage (c : Creature) (amount : ℚ) (attacker : Option Creature) :
    Creature × Option Creature :=
  if c.state = CState.dead then (c, attacker)
  else
    let c := { c with health := c.health - amount, damageTaken := c.damageTaken + amount }
    let attacker := attacker.map (fun a => { a with damageDealt := a.damageDealt + amount })
    if c.health ≤ 0 then die { c with health := 0 } attacker DeathCause.combat
    else (c, attacker)

/-- Creature.restoreHealth(amount): power-ups replenish both pools, capped
at 200; a no-op on a dead creature. -/
def restoreHealth (c : Creature) (amount : ℚ) : Creature :=
  if c.state = CState.dead then c
  else { c with food := min 200 (c.food + amount),
                health := min 200 (c.health + amount),
                powerUpsCollected := c.powerUpsCollected + 1 }

/-- Food drains at 100 units per 3600 seconds: one hour from full to empty. -/
def FOOD_PER_SECOND : ℚ := 100 / 3600

/-- The memory update at the end of Creature.update: a leaky integrator fed
by this-tick sensor readings. -/
def tickMemory (memory readings : List ℚ) : List ℚ :=
  mapIdx (fun i m =>
    let contrib := readings.foldl (fun acc a => acc + a * ((i : ℚ) + 1) * (1/10)) 0
    m * (95/100) + contrib * (5/100)) memory

/-- Creature.update(deltaTime).  Dead creatures only advance the death-fade
animation.  Living creatures advance simTime and age, lose food, die of
starvation when food reaches 0 (skipping the rest of the tick), and
otherwise run the behavioural pipeline, whose only effect on this record is
the memory update. -/
def Creature.update (c : Creature) (dt : ℚ) (readings : List ℚ) : Creature :=
  if c.state = CState.dead then
    let c := { c with deathTime := c.deathTime + dt }
    if c.deathTime > 2 then
      let c := { c with fadeAlpha := c.fadeAlpha - dt * (1/2) }
      if c.fadeAlpha ≤ 0 then { c with fadeAlpha := 0, canDestroy := true } else c
    else c
  else
    let c := { c with simTime := c.simTime + dt, age := c.age + dt }
    let c := { c with food := c.food - FOOD_PER_SECOND * dt }
    if c.food ≤ 0 then
      (die { c with food := 0 } none DeathCause.starvation).1
    else
      { c with memory := tickMemory c.memory readings }

/-! ## Collision handling, from physics.js -/

def DAMAGE_THRESHOLD : ℚ := 2
def DAMAGE_MULTIPLIER : ℚ := 15/100
def MOUTH_HEART_RADIUS : ℚ := 25

/-- The geometric inputs of PhysicsManager.handleCollision, computed by the
Matter.js collaborator: the magnitude of the relative velocity of the two
colliding bodies, their masses, and the two mouth-to-heart distances used
by the instant-kill check. -/
structure CollisionInput where
  impactSpeed : ℚ
  massA : ℚ
  massB : ℚ
  distMouthAHeartB : ℚ
  distMouthBHeartA : ℚ
deriving Repr, DecidableEq

/-- PhysicsManager.checkMouthHeartKill(attacker, victim): when the attacker
mouth is within MOUTH_HEART_RADIUS of the victim heart, the victim dies
(crediting the attacker as killer) and the attacker gets a 150-point
restore. -/
def checkMouthHeartKill (attacker victim : Creature) (dist : ℚ) : Creature × Creature :=
  if dist < MOUTH_HEART_RADIUS then
    let dv := die victim (some attacker) DeathCause.combat
    (restoreHealth (dv.2.getD attacker) 150, dv.1)
  else (attacker, victim)

/-- The blunt-damage base of handleCollision:
(impactSpeed - DAMAGE_THRESHOLD) * (massA + massB) * DAMAGE_MULTIPLIER. -/
def baseImpactDamage (inp : CollisionInput) : ℚ :=
  (inp.impactSpeed - DAMAGE_THRESHOLD) * (inp.massA + inp.massB) * DAMAGE_MULTIPLIER

/-- PhysicsManager.handleCollision for a pair of bodies of two distinct
creatures (the power-up, non-creature and same-creature early returns are
the cases this function is not called on).  Dead pairs are skipped; then
the mouth-heart instant kill runs in both directions; then, above the
impact-speed threshold, both creatures take half the blunt damage, each
with the other credited as attacker. -/
def handleCollision (cA cB : Creature) (inp : CollisionInput) : Creature × Creature :=
  if ¬(cA.isAlive = true ∧ cB.isAlive = true) then (cA, cB)
  else
    let ab := checkMouthHeartKill cA cB inp.distMouthAHeartB
    let cA := ab.1
    let cB := ab.2
    let ba := checkMouthHeartKill cB cA inp.distMouthBHeartA
    let cB := ba.1
    let cA := ba.2
    if inp.impactSpeed > DAMAGE_THRESHOLD then
      let damage := baseImpactDamage inp
      let t1 := takeDamage cA (damage * (1/2)) (some cB)
      let cA := t1.1
      let cB := (t1.2).getD cB
      let t2 := takeDamage cB (damage * (1/2)) (some cA)
      let cB := t2.1
      let cA := (t2.2).getD cA
      (cA, cB)
    else (cA, cB)

/-! ## Sensor reads, from Creature.readSensor in creature.js

For each candidate creature the host computes a Euclidean distance to its
mass-weighted centroid (a square root) and, for eyes, a normalised angular
difference to the optic axis (atan2 and the normalisation loop).  Those two
geometric outputs enter the model per candidate: the distance as a
rational, the field-of-view test as its Boolean outcome. -/

structure Candidate where
  alive : Bool
  distance : ℚ
  beauty : ℚ
  inFov : Bool
deriving Repr, DecidableEq

/-- One iteration of the readSensor scan loop over otherCreatures.  The
accumulator is (closestDistance, bestBeauty, detected), seeded with
(sensor.range, 0, false).  A dead candidate or one beyond range is skipped;
eyes additionally require the field-of-view test; an accepted candidate
must be strictly closer than the running closest.  Acceptance stores the
candidate beauty through the JS idiom beauty || 0.5. -/
def scanStep (stype : SType) (range : ℚ) (acc : ℚ × ℚ × Bool) (c : Candidate) :
    ℚ × ℚ × Bool :=
  if c.alive = false then acc
  else if c.distance > range then acc
  else
    let inRange := match stype with
      | SType.eye => c.inFov
      | SType.feeler => true
    if inRange = true ∧ c.distance < acc.1 then (c.distance, jsOr c.beauty (1/2), true)
    else acc

def scanCands (stype : SType) (range : ℚ) : List Candidate → (ℚ × ℚ × Bool) → ℚ × ℚ × Bool
  | [], acc => acc
  | c :: cs, acc => scanCands stype range cs (scanStep stype range acc c)

/-- Creature.readSensor: scan all other creatures; with no detection the
activation is 0, otherwise (1 - closest/range) * (1 + bestBeauty * 0.3)
capped at 1. -/
def readSensor (stype : SType) (range : ℚ) (cands : List Candidate) : ℚ :=
  let st := scanCands stype range cands (range, 0, false)
  if st.2.2 = false then 0
  else min 1 ((1 - st.1 / range) * (1 + st.2.1 * (3/10)))

/-- First element minimising f, ties resolved toward the earlier element. -/
def firstMinBy (f : α → ℚ) : List α → Option α
  | [] => none
  | a :: l =>
    match firstMinBy f l with
    | none => some a
    | some b => if f b < f a then some b else some a

/-- The eye field-of-view gate as a named function (true for feelers). -/
def fovGate (stype : SType) (c : Candidate) : Bool :=
  match stype with
  | SType.eye => c.inFov
  | SType.feeler => true

/-- The detection gate of readSensor for one candidate: alive, strictly
within range, and inside the field of view for eyes. -/
def passGate (stype : SType) (range : ℚ) (c : Candidate) : Bool :=
  c.alive && fovGate stype c && decide (c.distance < range)

/-- The activation the (amended) specification sentence describes: filter
the candidates through the detection gate, take the nearest detected
creature (first one on ties), and apply
min 1 ((1 - distance/range) * (1 + (beauty or 0.5) * 0.3));
0 when nothing is detected. -/
def claimActivation (stype : SType) (range : ℚ) (cands : List Candidate) : ℚ :=
  match firstMinBy Candidate.distance (cands.filter (passGate stype range)) with
  | none => 0
  | some c => min 1 ((1 - c.distance / range) * (1 + jsOr c.beauty (1/2) * (3/10)))

/-! ## The evolution manager, from evolution.js

The JS Array.prototype.sort with comparator (a, b) => b.fitness - a.fitness
is a stable descending sort (stability is mandated by the ECMAScript
specification); it is modelled by a stable insertion sort. -/

def insertByFitness (x : DNA) : List DNA → List DNA
  | [] => [x]
  | y :: ys => if y.fitness ≤ x.fitness then x :: y :: ys else y :: insertByFitness x ys

def sortByFitnessDesc : List DNA → List DNA
  | [] => []
  | x :: xs => insertByFitness x (sortByFitnessDesc xs)

/-- One tournament draw of EvolutionManager.selectParent: three random
indices into the sorted population (Math.floor(Math.random() * length),
always in range for a unit-interval draw, supplied as an index reduced
modulo the length), best of the drawn candidates. -/
def selectParent (sorted : List DNA) (draws : ℕ × ℕ × ℕ) : DNA :=
  let tournamentSize := min 3 sorted.length
  let idxs := [draws.1, draws.2.1, draws.2.2].take tournamentSize
  let candidates := idxs.map (fun k => sorted.getD (k % sorted.length) dnaDefault)
  match candidates with
  | [] => dnaDefault
  | c :: cs => cs.foldl (fun best curr => if best.fitness < curr.fitness then curr else best) c

/-- The random draws consumed by one iteration of the offspring loop of
evolveNextGeneration. -/
structure OffRand where
  pCross : ℚ
  sel1 : ℕ × ℕ × ℕ
  sel2 : ℕ × ℕ × ℕ
  selA : ℕ × ℕ × ℕ
  cross : CrossRand
  mutr : MutRand

/-- EvolutionManager.evolveNextGeneration: stable-sort the population by
descending fitness; clone the top eliteCount genomes with fitness reset to
0 and generation stamped to the incremented manager counter; fill the
remaining slots with tournament-selected offspring (crossover with
probability crossoverRate when at least two genomes exist, else an asexual
clone), each mutated at mutationRate and stamped likewise.  Returns the new
population together with the incremented generation counter. -/
def evolveNextGeneration (pop : List DNA) (generation : ℕ)
    (populationSize eliteCount : ℕ) (crossoverRate mutationRate : ℚ)
    (rand : ℕ → OffRand) : List DNA × ℕ :=
  let sorted := sortByFitnessDesc pop
  let elites := (sorted.take eliteCount).map (fun d =>
    { cloneDNA d with generation := generation + 1, fitness := 0 })
  let offspring := (List.range (populationSize - elites.length)).map (fun k =>
    let r := rand k
    let child :=
      if r.pCross < crossoverRate ∧ 2 ≤ sorted.length then
        crossoverDNA (selectParent sorted r.sel1) (selectParent sorted r.sel2) r.cross
      else
        cloneDNA (selectParent sorted r.selA)
    let child := mutateDNA child mutationRate r.mutr
    { child with generation := generation + 1, fitness := 0 })
  (elites ++ offspring, generation + 1)

/-! ## State-passing call wrappers for the genetic operators

The first component of each wrapper is the value held by the caller
references after the call returns.  Both source functions deep-copy their
inputs on the first line (cloneDNA, a JSON round trip sharing no
substructure with the source) and every subsequent assignment in their
bodies targets the copy, so the argument cells still hold the original
genomes. -/

def mutateDNACall (dna : DNA) (rate : ℚ) (r : MutRand) : DNA × DNA :=
  (dna, mutateDNA dna rate r)

def crossoverDNACall (dna1 dna2 : DNA) (r : CrossRand) : (DNA × DNA) × DNA :=
  ((dna1, dna2), crossoverDNA dna1 dna2 r)

/-! ## Shared concrete values for witnesses and counterexamples -/

def mkCreature (st : CState) (food health age : ℚ) : Creature :=
  { state := st, food := food, health := health, age := age, simTime := 0,
    deathTime := 0, fadeAlpha := 1, canDestroy := false, deathCause := none,
    lastReproductionTime := 0, damageDealt := 0, damageTaken := 0, kills := 0,
    powerUpsCollected := 0, memory := [0, 0] }

def segDefault : Segment :=
  { id := 0, parentId := none, attachAngle := 0, shape := Shape.rectangle,
    length := some 30, width := some 10, radius := none, mass := 1,
    color := [10, 20, 30], isHeart := true, isMouth := true, isGripper := some false }

def jointDefault : Joint :=
  { segA := 0, segB := 1, attachPointA := (0, -15), attachPointB := (0, 15),
    restLength := 20, minLength := 10, maxLength := 50, stiffness := 1/2,
    motorPattern := { amplitude := 5, frequency := 1, phase := 0 } }

def sensorDefault : Sensor :=
  { id := 0, type := SType.feeler, segmentId := 0, angle := 0, range := 50, fov := 0 }

def noSegRand : SegRand :=
  { pDims := 1, rDimA := 0, rDimB := 0, pMass := 1, rMass := 0, pColor := 1,
    rColor := fun _ => 0, pGrip := 1 }

def noJointRand : JointRand :=
  { pRest := 1, rRest := 0, pStiff := 1, rStiff := 0, pAmp := 1, rAmp := 0,
    pFreq := 1, rFreq := 0, pPhase := 1, rPhase := 0 }

def noSensorRand : SensorRand :=
  { pAngle := 1, rAngle := 0, pRange := 1, rRange := 0, pFov := 1, rFov := 0 }

def noWRand : WRand :=
  { pAmp := 1, rAmp := 0, pFreq := 1, rFreq := 0, pPhase := 1, rPhase := 0 }

def noNewSensorRand : NewSensorRand :=
  { rEye := 0, rSeg := 0, rAngle := 0, rRange := 0, rFov := 0, w := fun _ => (0, 0, 0) }

def noNewBranchRand : NewBranchRand :=
  { rParent := 0, rCircle := 0, rAngle := 0, rDimA := 0, rDimB := 0, rMass := 0,
    color := { rHue := 0, rSat := 0, rLight := 0 }, rMouth := 0, rRest := 0,
    rStiff := 0, rAmpl := 0, rFreq := 0, rPhase := 0, w := fun _ => (0, 0, 0) }

/-- A randomness oracle on which every Bernoulli trial of mutateDNA fails
(all trial draws are 1, never below rate times any of the source factors
for rates up to 1). -/
def noMutRand : MutRand :=
  { seg := fun _ => noSegRand, pBeauty := 1, rBeauty := 0,
    joint := fun _ => noJointRand, sensor := fun _ => noSensorRand,
    weight := fun _ _ => noWRand, pAddSensor := 1, newSensor := noNewSensorRand,
    pAddBranch := 1, newBranch := noNewBranchRand }

def crossRand0 : CrossRand := { pBase := 0, pJoint := fun _ => 0, rHue := 0 }

/-- C3: mutateDNA and crossoverDNA never mutate their input arguments; in
the state-passing rendering of the calls, the caller cells still hold
values deep-equal to baseline clones taken before the call, for every
outcome of the random draws.  This rests on cloneDNA being a full deep
copy: the bodies only ever write to the clone. -/
theorem claim_C3_inputs_unchanged :
    ∀ (dna : DNA) (rate : ℚ) (r : MutRand) (d1 d2 : DNA) (rc : CrossRand),
      (mutateDNACall dna rate r).1 = cloneDNA dna ∧
      (crossoverDNACall d1 d2 rc).1 = (cloneDNA d1, cloneDNA d2) := by
  intro dna rate r d1 d2 rc
  exact ⟨rfl, rfl⟩

/-- C5: a living creature loses exactly 100/3600 food per second of tick
time; if the decremented food is at or below 0 it is clamped to 0, the
creature dies of starvation (isAlive becomes false) and the rest of the
tick is skipped; in particular food 0.001 and dt at least 0.1 kills the
creature. -/
theorem claim_C5_starvation (c : Creature) (dt : ℚ) (readings : List ℚ)
    (halive : c.state = CState.alive) :
    (0 < c.food - FOOD_PER_SECOND * dt →
      (c.update dt readings).food = c.food - FOOD_PER_SECOND * dt ∧
      (c.update dt readings).state = CState.alive) ∧
    (c.food - FOOD_PER_SECOND * dt ≤ 0 →
      (c.update dt readings).food = 0 ∧
      (c.update dt readings).state = CState.dead ∧
      (c.update dt readings).deathCause = some DeathCause.starvation ∧
      (c.update dt readings).isAlive = false ∧
      (c.update dt readings).memory = c.memory) ∧
    (c.food = 1/1000 → 1/10 ≤ dt →
      (c.update dt readings).state = CState.dead ∧
      (c.update dt readings).deathCause = some DeathCause.starvation ∧
      (c.update dt readings).isAlive = false) := by
  have hnotdead : ¬ c.state = CState.dead := by rw [halive]; intro h; cases h
  refine ⟨?_, ?_, ?_⟩
  · intro hpos
    have hnot : ¬ c.food - FOOD_PER_SECOND * dt ≤ 0 := by linarith
    simp [Creature.update, hnotdead, hnot, halive]
  · intro hneg
    simp [Creature.update, hnotdead, hneg, die, Creature.isAlive]
  · intro hfood hdt
    have hneg : c.food - FOOD_PER_SECOND * dt ≤ 0 := by
      rw [hfood]
      have : (1 : ℚ)/360 ≤ FOOD_PER_SECOND * dt := by
        have : FOOD_PER_SECOND * (1/10) ≤ FOOD_PER_SECOND * dt := by
          apply mul_le_mul_of_nonneg_left hdt
          norm_num [FOOD_PER_SECOND]
        calc (1 : ℚ)/360 = FOOD_PER_SECOND * (1/10) := by norm_num [FOOD_PER_SECOND]
          _ ≤ FOOD_PER_SECOND * dt := this
      linarith
    simp [Creature.update, hnotdead, hneg, die, Creature.isAlive]

/-- C5 witness: a creature with food 0.001 receiving one tick of 0.1
seconds starves. -/
theorem claim_C5_witness :
    ((mkCreature CState.alive (1/1000) 100 0).update (1/10) []).state = CState.dead ∧
    ((mkCreature CState.alive (1/1000) 100 0).update (1/10) []).deathCause
       = some DeathCause.starvation ∧
    ((mkCreature CState.alive (1/1000) 100 0).update (1/10) []).isAlive = false :=
  (claim_C5_starvation (mkCreature CState.alive (1/1000) 100 0) (1/10) []
      (by rfl)).2.2 (by rfl) (by norm_num)

/-- C6 counterexample: takeDamage does change food when the hit is lethal:
a creature with food 100 and health 10 hit for 20 damage dies, and die
zeroes its food, so food moves from 100 to 0. -/
theorem claim_C6_counterexample :
    ((takeDamage (mkCreature CState.alive 100 10 0) 20 none).1).food
      ≠ (mkCreature CState.alive 100 10 0).food := by
  simp [takeDamage, die, mkCreature]
  norm_num

/-- C6 amended: takeDamage never changes food except when the hit is
lethal (post-hit health at or below 0), in which case the triggered death
zeroes food; restoreHealth on a living creature raises food and health by
the same amount, each capped at 200, and both operations are no-ops on a
dead creature. -/
theorem claim_C6_amended (c : Creature) (amount : ℚ) (attacker : Option Creature) :
    (c.state = CState.alive → 0 < c.health - amount →
        ((takeDamage c amount attacker).1).food = c.food) ∧
    (c.state = CState.alive → c.health - amount ≤ 0 →
        ((takeDamage c amount attacker).1).food = 0) ∧
    (c.state = CState.dead → (takeDamage c amount attacker).1 = c) ∧
    (c.state = CState.alive →
        (restoreHealth c amount).food = min 200 (c.food + amount) ∧
        (restoreHealth c amount).health = min 200 (c.health + amount)) ∧
    (c.state = CState.dead → restoreHealth c amount = c) := by
  refine ⟨?_, ?_, ?_, ?_, ?_⟩
  · intro halive hpos
    have hnotdead : ¬ c.state = CState.dead := by rw [halive]; intro h; cases h
    have hnot : ¬ c.health - amount ≤ 0 := by linarith
    simp [takeDamage, hnotdead, hnot]
  · intro halive hneg
    have hnotdead : ¬ c.state = CState.dead := by rw [halive]; intro h; cases h
    simp [takeDamage, hnotdead, hneg, die]
  · intro hdead
    simp [takeDamage, hdead]
  · intro halive
    have hnotdead : ¬ c.state = CState.dead := by rw [halive]; intro h; cases h
    simp [restoreHealth, hnotdead]
  · intro hdead
    simp [restoreHealth, hdead]

/-- C6 witness: a non-lethal hit of 5 on a living creature with health 50
leaves food untouched, and a 30-point restore raises food and health by
30 below the cap. -/
theorem claim_C6_witness :
    ((takeDamage (mkCreature CState.alive 80 50 0) 5 none).1).food
        = (mkCreature CState.alive 80 50 0).food ∧
    (restoreHealth (mkCreature CState.alive 80 50 0) 30).food
        = min 200 ((mkCreature CState.alive 80 50 0).food + 30) ∧
    (restoreHealth (mkCreature CState.alive 80 50 0) 30).health
        = min 200 ((mkCreature CState.alive 80 50 0).health + 30) :=
  ⟨(claim_C6_amended (mkCreature CState.alive 80 50 0) 5 none).1 (by rfl)
      (by norm_num [mkCreature]),
   ((claim_C6_amended (mkCreature CState.alive 80 50 0) 30 none).2.2.2.1 (by rfl)).1,
   ((claim_C6_amended (mkCreature CState.alive 80 50 0) 30 none).2.2.2.1 (by rfl)).2⟩

/-- C7: die is idempotent on a dead creature; on the transition from alive
it zeroes the victim food and health and records the cause, and a supplied
killer gets health and food set to exactly 200 and its kill count
incremented by exactly 1 (all other killer fields unchanged). -/
theorem claim_C7_die (c k : Creature) (killer : Option Creature) (cause : DeathCause) :
    (c.state = CState.dead → die c killer cause = (c, killer)) ∧
    (c.state = CState.alive →
      ((die c killer cause).1.food = 0 ∧
       (die c killer cause).1.health = 0 ∧
       (die c killer cause).1.state = CState.dead ∧
       (die c killer cause).1.deathCause = some cause) ∧
      (die c (some k) cause).2
        = some { k with kills := k.kills + 1, health := 200, food := 200 }) := by
  constructor
  · intro hdead
    simp [die, hdead]
  · intro halive
    have hnotdead : ¬ c.state = CState.dead := by rw [halive]; intro h; cases h
    simp [die, hnotdead]

/-- C7 witness: killing a living creature with a living killer zeroes the
victim pools and rewards the killer with 200 food, 200 health and one
kill. -/
theorem claim_C7_witness :
    ((die (mkCreature CState.alive 60 40 0) (some (mkCreature CState.alive 10 20 0))
        DeathCause.combat).1.food = 0 ∧
     (die (mkCreature CState.alive 60 40 0) (some (mkCreature CState.alive 10 20 0))
        DeathCause.combat).1.health = 0 ∧
     (die (mkCreature CState.alive 60 40 0) (some (mkCreature CState.alive 10 20 0))
        DeathCause.combat).1.state = CState.dead ∧
     (die (mkCreature CState.alive 60 40 0) (some (mkCreature CState.alive 10 20 0))
        DeathCause.combat).1.deathCause = some DeathCause.combat) ∧
    (die (mkCreature CState.alive 60 40 0) (some (mkCreature CState.alive 10 20 0))
        DeathCause.combat).2
      = some { mkCreature CState.alive 10 20 0 with
                 kills := (mkCreature CState.alive 10 20 0).kills + 1,
                 health := 200, food := 200 } :=
  claim_C7_die (mkCreature CState.alive 60 40 0) (mkCreature CState.alive 10 20 0)
    (some (mkCreature CState.alive 10 20 0)) DeathCause.combat |>.2 (by rfl)

/-! ## Claim C1: age-scaled collision damage -/

/-- Modelled from the spec (claim C1 wording): the attacker age bonus,
rising linearly from 1.0 at age 0 to 2.0 at age 14400 seconds and capped
there.  No such quantity exists anywhere in the source. -/
def specAttackerAgeBonus (age : ℚ) : ℚ := 1 + min (age / 14400) 1

/-- Modelled from the spec (claim C1 wording): the defender age defense,
falling linearly from 1.0 at age 0 to 0.5 at age 14400 seconds and capped
there.  No such quantity exists anywhere in the source. -/
def specDefenderAgeDefense (age : ℚ) : ℚ := 1 - (1/2) * min (age / 14400) 1

/-- Modelled from the spec (claim C1 wording): the claimed final damage
baseImpactDamage x 0.5 x attackerAgeBonus x defenderAgeDefense. -/
def specClaimedDamage (base attackerAge defenderAge : ℚ) : ℚ :=
  base * (1/2) * specAttackerAgeBonus attackerAge * specDefenderAgeDefense defenderAge

/-- A mouth-heart distance at or beyond the kill radius leaves both
creatures untouched. -/
theorem checkMouthHeartKill_miss (a v : Creature) (dist : ℚ)
    (h : MOUTH_HEART_RADIUS ≤ dist) :
    checkMouthHeartKill a v dist = (a, v) := by
  simp only [checkMouthHeartKill]
  rw [if_neg (not_lt.mpr h)]

/-- A non-lethal hit on a living creature: health drops by the amount,
damageTaken accrues, and the attacker only accrues damageDealt. -/
theorem takeDamage_nonlethal (c : Creature) (amount : ℚ) (att : Option Creature)
    (halive : c.state = CState.alive) (h : amount < c.health) :
    takeDamage c amount att =
      ({ c with health := c.health - amount, damageTaken := c.damageTaken + amount },
       att.map (fun a => { a with damageDealt := a.damageDealt + amount })) := by
  have hnd : ¬ c.state = CState.dead := by rw [halive]; intro hh; cases hh
  have hl : ¬ c.health - amount ≤ 0 := by
    apply not_le.mpr; linarith
  simp only [takeDamage]
  rw [if_neg hnd, if_neg hl]

/-- Shared helper: with both creatures alive, no instant kill, impact
speed above threshold and non-lethal damage, handleCollision drops each
health by exactly half the base impact damage and leaves food alone. -/
theorem handleCollision_blunt (cA cB : Creature) (inp : CollisionInput)
    (hA : cA.state = CState.alive) (hB : cB.state = CState.alive)
    (hkAB : MOUTH_HEART_RADIUS ≤ inp.distMouthAHeartB)
    (hkBA : MOUTH_HEART_RADIUS ≤ inp.distMouthBHeartA)
    (hs : DAMAGE_THRESHOLD < inp.impactSpeed)
    (hhA : baseImpactDamage inp * (1/2) < cA.health)
    (hhB : baseImpactDamage inp * (1/2) < cB.health) :
    ((handleCollision cA cB inp).1.health = cA.health - baseImpactDamage inp * (1/2) ∧
     (handleCollision cA cB inp).2.health = cB.health - baseImpactDamage inp * (1/2)) ∧
    ((handleCollision cA cB inp).1.food = cA.food ∧
     (handleCollision cA cB inp).2.food = cB.food) := by
  have hAl : cA.isAlive = true := by simp [Creature.isAlive, hA]
  have hBl : cB.isAlive = true := by simp [Creature.isAlive, hB]
  have ht1 := takeDamage_nonlethal cA (baseImpactDamage inp * (1/2)) (some cB) hA hhA
  have ht2 := takeDamage_nonlethal
    { cB with damageDealt := cB.damageDealt + baseImpactDamage inp * (1/2) }
    (baseImpactDamage inp * (1/2))
    (some { cA with health := cA.health - baseImpactDamage inp * (1/2),
                    damageTaken := cA.damageTaken + baseImpactDamage inp * (1/2) })
    hB hhB
  simp only [handleCollision, checkMouthHeartKill_miss cA cB _ hkAB,
    checkMouthHeartKill_miss cB cA _ hkBA, hAl, hBl, and_self, not_true_eq_false,
    Bool.true_eq, if_false, if_pos hs, ite_false]
  rw [ht1]
  simp only [Option.map_some', Option.getD_some]
  rw [ht2]
  simp

/-- C1 counterexample: an attacker of age 14400 seconds (claimed bonus
2.0) colliding at impact speed 4 with masses 1 and 1 (base damage 0.6)
with a defender of age 0.  The claim predicts the defender health drops by
0.6; the code drops it by 0.3, because handleCollision applies no age
scaling at all. -/
theorem claim_C1_counterexample :
    ¬ ((handleCollision (mkCreature CState.alive 100 100 14400)
          (mkCreature CState.alive 100 100 0)
          { impactSpeed := 4, massA := 1, massB := 1,
            distMouthAHeartB := 100, distMouthBHeartA := 100 }).2.health
        = (mkCreature CState.alive 100 100 0).health
          - specClaimedDamage
              (baseImpactDamage
                { impactSpeed := 4, massA := 1, massB := 1,
                  distMouthAHeartB := 100, distMouthBHeartA := 100 })
              (mkCreature CState.alive 100 100 14400).age
              (mkCreature CState.alive 100 100 0).age) := by
  have h := handleCollision_blunt (mkCreature CState.alive 100 100 14400)
    (mkCreature CState.alive 100 100 0)
    { impactSpeed := 4, massA := 1, massB := 1,
      distMouthAHeartB := 100, distMouthBHeartA := 100 }
    (by rfl) (by rfl)
    (by norm_num [MOUTH_HEART_RADIUS])
    (by norm_num [MOUTH_HEART_RADIUS])
    (by norm_num [DAMAGE_THRESHOLD])
    (by norm_num [baseImpactDamage, mkCreature, DAMAGE_THRESHOLD, DAMAGE_MULTIPLIER])
    (by norm_num [baseImpactDamage, mkCreature, DAMAGE_THRESHOLD, DAMAGE_MULTIPLIER])
  rw [h.1.2]
  norm_num [mkCreature, baseImpactDamage, specClaimedDamage,
    specAttackerAgeBonus, specDefenderAgeDefense, min_def,
    DAMAGE_THRESHOLD, DAMAGE_MULTIPLIER]

/-- C1 amended: for a collision between two living creatures with both
mouth-heart distances outside the instant-kill radius, an impact speed
above the threshold and non-lethal damage, each defender health drops by
exactly baseImpactDamage x 0.5, where baseImpactDamage =
(impactSpeed - 2) x (massA + massB) x 0.15, with no age-based multipliers
(the conclusion is independent of both ages), and food is untouched. -/
theorem claim_C1_amended (cA cB : Creature) (inp : CollisionInput)
    (hA : cA.state = CState.alive) (hB : cB.state = CState.alive)
    (hkAB : MOUTH_HEART_RADIUS ≤ inp.distMouthAHeartB)
    (hkBA : MOUTH_HEART_RADIUS ≤ inp.distMouthBHeartA)
    (hs : DAMAGE_THRESHOLD < inp.impactSpeed)
    (hhA : baseImpactDamage inp * (1/2) < cA.health)
    (hhB : baseImpactDamage inp * (1/2) < cB.health) :
    ((handleCollision cA cB inp).1.health = cA.health - baseImpactDamage inp * (1/2) ∧
     (handleCollision cA cB inp).2.health = cB.health - baseImpactDamage inp * (1/2)) ∧
    ((handleCollision cA cB inp).1.food = cA.food ∧
     (handleCollision cA cB inp).2.food = cB.food) :=
  handleCollision_blunt cA cB inp hA hB hkAB hkBA hs hhA hhB

/-- C1 witness for the amended theorem: impact speed 4, masses 1 and 1,
both creatures far from an instant kill and at full health: both lose
exactly 0.3 health and no food. -/
theorem claim_C1_witness :
    ((handleCollision (mkCreature CState.alive 100 100 14400)
        (mkCreature CState.alive 100 100 0)
        { impactSpeed := 4, massA := 1, massB := 1,
          distMouthAHeartB := 100, distMouthBHeartA := 100 }).1.health
      = (mkCreature CState.alive 100 100 14400).health
        - baseImpactDamage
            { impactSpeed := 4, massA := 1, massB := 1,
              distMouthAHeartB := 100, distMouthBHeartA := 100 } * (1/2)) ∧
    ((handleCollision (mkCreature CState.alive 100 100 14400)
        (mkCreature CState.alive 100 100 0)
        { impactSpeed := 4, massA := 1, massB := 1,
          distMouthAHeartB := 100, distMouthBHeartA := 100 }).2.food
      = (mkCreature CState.alive 100 100 0).food) := by
  have h := claim_C1_amended (mkCreature CState.alive 100 100 14400)
    (mkCreature CState.alive 100 100 0)
    { impactSpeed := 4, massA := 1, massB := 1,
      distMouthAHeartB := 100, distMouthBHeartA := 100 }
    (by rfl) (by rfl)
    (by norm_num [MOUTH_HEART_RADIUS])
    (by norm_num [MOUTH_HEART_RADIUS])
    (by norm_num [DAMAGE_THRESHOLD])
    (by norm_num [baseImpactDamage, mkCreature, DAMAGE_THRESHOLD, DAMAGE_MULTIPLIER])
    (by norm_num [baseImpactDamage, mkCreature, DAMAGE_THRESHOLD, DAMAGE_MULTIPLIER])
  exact ⟨h.1.1, h.2.2⟩

/-! ## Claim C4: the weights-matrix invariant is preserved by mutateDNA -/

theorem mem_of_getElem?_eq_some {l : List α} {i : ℕ} {a : α} (h : l[i]? = some a) :
    a ∈ l := by
  obtain ⟨hi, he⟩ := List.getElem?_eq_some.mp h
  exact he ▸ List.getElem_mem hi

/-- The invariant of section 3 of the spec: one weight row per sensor and
one weight column per joint. -/
def WeightsConsistent (d : DNA) : Prop :=
  d.sensorMotorWeights.length = d.sensors.length ∧
  ∀ row ∈ d.sensorMotorWeights, row.length = d.joints.length

theorem weightsConsistent_mutateCore (rate : ℚ) (r : MutRand) (d : DNA)
    (h : WeightsConsistent d) : WeightsConsistent (mutateCore rate r d) := by
  obtain ⟨h1, h2⟩ := h
  constructor
  · simp [mutateCore, cloneDNA, length_mapIdx, h1]
    split <;> simp [length_mapIdx, h1]
  · intro row hrow
    simp only [mutateCore, cloneDNA] at hrow ⊢
    split at hrow <;>
    · obtain ⟨i, row0, hget, rfl⟩ := mem_mapIdx.mp hrow
      simp only [length_mapIdx]
      split <;> exact h2 row0 (mem_of_getElem?_eq_some hget)

theorem weightsConsistent_addSensorPhase (rate pAdd : ℚ) (r : NewSensorRand) (d : DNA)
    (h : WeightsConsistent d) : WeightsConsistent (addSensorPhase rate pAdd r d) := by
  obtain ⟨h1, h2⟩ := h
  unfold addSensorPhase
  split
  · constructor
    · simp [h1]
    · intro row hrow
      rcases List.mem_append.mp hrow with hl | hr
      · simpa using h2 row hl
      · simp only [List.mem_singleton] at hr
        subst hr
        simp [length_mapIdx]
  · exact ⟨h1, h2⟩

theorem weightsConsistent_addBranchPhase (rate pAdd : ℚ) (r : NewBranchRand) (d : DNA)
    (h : WeightsConsistent d) : WeightsConsistent (addBranchPhase rate pAdd r d) := by
  obtain ⟨h1, h2⟩ := h
  unfold addBranchPhase
  split
  · constructor
    · simp [length_mapIdx, h1]
    · intro row hrow
      simp only at hrow
      obtain ⟨i, row0, hget, rfl⟩ := mem_mapIdx.mp hrow
      have := h2 row0 (mem_of_getElem?_eq_some hget)
      simp [this]
  · exact ⟨h1, h2⟩

/-- C4: for every genome whose sensor-motor weight matrix has one row per
sensor and one column per joint, the genome returned by mutateDNA again
has one row per sensor and one column per joint, for every outcome of the
random draws, including the branches adding a sensor (row appended) or a
branch segment plus joint (column appended to every row). -/
theorem claim_C4_matrix_invariant (d : DNA) (rate : ℚ) (r : MutRand)
    (hrow : d.sensorMotorWeights.length = d.sensors.length)
    (hcol : ∀ row ∈ d.sensorMotorWeights, row.length = d.joints.length) :
    (mutateDNA d rate r).sensorMotorWeights.length = (mutateDNA d rate r).sensors.length ∧
    ∀ row ∈ (mutateDNA d rate r).sensorMotorWeights,
      row.length = (mutateDNA d rate r).joints.length :=
  weightsConsistent_addBranchPhase _ _ _ _
    (weightsConsistent_addSensorPhase _ _ _ _
      (weightsConsistent_mutateCore _ _ _ ⟨hrow, hcol⟩))

def w0 : SMWeight := { amplitudeMod := 0, frequencyMod := 0, phaseMod := 0 }

def dSmall : DNA :=
  { segments := [segDefault], joints := [jointDefault], sensors := [sensorDefault],
    sensorMotorWeights := [[w0]], generation := 0, fitness := 0, baseHue := 120,
    beauty := 1/2, memorySize := 2 }

/-- C4 witness: a genome with one segment, one joint, one sensor and a one
by one weight matrix keeps the invariant under mutateDNA. -/
theorem claim_C4_witness :
    (mutateDNA dSmall (3/20) noMutRand).sensorMotorWeights.length
      = (mutateDNA dSmall (3/20) noMutRand).sensors.length ∧
    ∀ row ∈ (mutateDNA dSmall (3/20) noMutRand).sensorMotorWeights,
      row.length = (mutateDNA dSmall (3/20) noMutRand).joints.length :=
  claim_C4_matrix_invariant dSmall (3/20) noMutRand (by rfl)
    (by intro row hrow; simp only [dSmall, List.mem_singleton] at hrow; subst hrow; rfl)

/-! ## Claim C9: crossoverDNA and the weights-matrix invariant -/

theorem crossoverDNA_weightsConsistent (d1 d2 : DNA) (r : CrossRand)
    (h1 : WeightsConsistent d1) (h2 : WeightsConsistent d2) :
    WeightsConsistent (crossoverDNA d1 d2 r) := by
  unfold crossoverDNA cloneDNA
  by_cases hp : r.pBase < 1/2
  · simp only [if_pos hp]
    refine ⟨by simpa using h1.1, ?_⟩
    intro row hrow
    simp only at hrow
    simp only [length_mapIdx]
    exact h1.2 row hrow
  · simp only [if_neg hp]
    refine ⟨by simpa using h2.1, ?_⟩
    intro row hrow
    simp only at hrow
    simp only [length_mapIdx]
    exact h2.2 row hrow

/-- C9 counterexample: the claimed mismatch is impossible.  There is no
pair of parents, each satisfying the one-row-per-sensor and
one-column-per-joint invariant but with different joint counts, and no
random outcome, for which crossoverDNA produces a child violating the
invariant against its own sensor and joint counts: the child inherits one
parent wholesale and only motor patterns of existing joints are replaced. -/
theorem claim_C9_counterexample :
    ¬ ∃ (d1 d2 : DNA) (r : CrossRand),
        WeightsConsistent d1 ∧ WeightsConsistent d2 ∧
        d1.joints.length ≠ d2.joints.length ∧
        ¬ WeightsConsistent (crossoverDNA d1 d2 r) := by
  rintro ⟨d1, d2, r, h1, h2, -, hbad⟩
  exact hbad (crossoverDNA_weightsConsistent d1 d2 r h1 h2)

/-- C9 amended: for every pair of parent genomes satisfying the weights
invariant, including pairs with different joint counts, the crossoverDNA
child satisfies the invariant with respect to its own sensor and joint
counts, for every random outcome. -/
theorem claim_C9_amended (d1 d2 : DNA) (r : CrossRand)
    (h1 : WeightsConsistent d1) (h2 : WeightsConsistent d2) :
    WeightsConsistent (crossoverDNA d1 d2 r) :=
  crossoverDNA_weightsConsistent d1 d2 r h1 h2

def dNoJoints : DNA :=
  { segments := [segDefault], joints := [], sensors := [sensorDefault],
    sensorMotorWeights := [[]], generation := 0, fitness := 0, baseHue := 0,
    beauty := 1/2, memorySize := 2 }

/-- C9 witness: crossing a one-joint parent with a zero-joint parent still
yields a child satisfying the invariant. -/
theorem claim_C9_witness :
    WeightsConsistent (crossoverDNA dSmall dNoJoints crossRand0) :=
  claim_C9_amended dSmall dNoJoints crossRand0
    (by
      refine ⟨rfl, ?_⟩
      intro row hrow
      simp only [dSmall, List.mem_singleton] at hrow
      subst hrow
      rfl)
    (by
      refine ⟨rfl, ?_⟩
      intro row hrow
      simp only [dNoJoints, List.mem_singleton] at hrow
      subst hrow
      rfl)

/-! ## Claim C10: mutateDNA never removes or reorders existing structure -/

/-- The fields of a segment that mutateDNA never touches at an existing
index: identity, tree edge, shape and combat flags. -/
def SegKeeps (s t : Segment) : Prop :=
  t.id = s.id ∧ t.parentId = s.parentId ∧ t.shape = s.shape ∧
  t.attachAngle = s.attachAngle ∧ t.isHeart = s.isHeart ∧ t.isMouth = s.isMouth

/-- The fields of a joint that mutateDNA never touches at an existing
index: topology, attachment points and length bounds. -/
def JointKeeps (j t : Joint) : Prop :=
  t.segA = j.segA ∧ t.segB = j.segB ∧ t.attachPointA = j.attachPointA ∧
  t.attachPointB = j.attachPointB ∧ t.minLength = j.minLength ∧ t.maxLength = j.maxLength

/-- The fields of a sensor that mutateDNA never touches at an existing
index: identity, kind and carrying segment. -/
def SensorKeeps (s t : Sensor) : Prop :=
  t.id = s.id ∧ t.type = s.type ∧ t.segmentId = s.segmentId

theorem segKeeps_mutateSegment (rate b : ℚ) (r : SegRand) (s : Segment) :
    SegKeeps s (mutateSegment rate b r s) := by
  obtain ⟨sid, pid, aa, sh, ln, wd, rd, ms, co, ih, im, ig⟩ := s
  unfold SegKeeps mutateSegment
  simp only []
  cases ig <;> repeat' split
  all_goals exact ⟨rfl, rfl, rfl, rfl, rfl, rfl⟩

theorem jointKeeps_mutateJoint (rate : ℚ) (r : JointRand) (j : Joint) :
    JointKeeps j (mutateJoint rate r j) := by
  unfold JointKeeps mutateJoint
  repeat' split
  all_goals exact ⟨rfl, rfl, rfl, rfl, rfl, rfl⟩

theorem sensorKeeps_mutateSensor (rate : ℚ) (r : SensorRand) (s : Sensor) :
    SensorKeeps s (mutateSensor rate r s) := by
  obtain ⟨sid, ty, sg, an, rg, fv⟩ := s
  unfold SensorKeeps mutateSensor
  simp only []
  repeat' split
  all_goals exact ⟨rfl, rfl, rfl⟩

theorem mutateCore_segments (rate : ℚ) (r : MutRand) (d : DNA) :
    (mutateCore rate r d).segments
      = mapIdx (fun i s => mutateSegment rate d.beauty (r.seg i) s) d.segments := by
  unfold mutateCore cloneDNA
  split <;> rfl

theorem mutateCore_joints (rate : ℚ) (r : MutRand) (d : DNA) :
    (mutateCore rate r d).joints
      = mapIdx (fun i j => mutateJoint rate (r.joint i) j) d.joints := by
  unfold mutateCore cloneDNA
  split <;> rfl

theorem mutateCore_sensors (rate : ℚ) (r : MutRand) (d : DNA) :
    (mutateCore rate r d).sensors
      = mapIdx (fun i s => mutateSensor rate (r.sensor i) s) d.sensors := by
  unfold mutateCore cloneDNA
  split <;> rfl

theorem mutateCore_weights (rate : ℚ) (r : MutRand) (d : DNA) :
    (mutateCore rate r d).sensorMotorWeights
      = mapIdx (fun s row => mapIdx (fun j w => mutateWeight rate (r.weight s j) w) row)
          d.sensorMotorWeights := by
  unfold mutateCore cloneDNA
  split <;> rfl

theorem getD_mapIdx (f : ℕ → α → β) (l : List α) (i : ℕ) (h : i < l.length)
    (da : α) (db : β) : (mapIdx f l).getD i db = f i (l.getD i da) := by
  have hl : l[i]? = some (l.get ⟨i, h⟩) := List.getElem?_eq_getElem h
  rw [List.getD_eq_getElem?_getD, List.getD_eq_getElem?_getD, getElem?_mapIdx, hl]
  rfl

theorem getD_append_left {l1 l2 : List α} {i : ℕ} (h : i < l1.length) (dflt : α) :
    (l1 ++ l2).getD i dflt = l1.getD i dflt := by
  rw [List.getD_eq_getElem?_getD, List.getD_eq_getElem?_getD,
    List.getElem?_append_left h]

/-- Case description of the add-sensor phase: either a no-op, or (only
below the 5-sensor cap) an appended sensor with an appended weight row of
one entry per joint. -/
theorem addSensor_cases (rate p : ℚ) (r : NewSensorRand) (d : DNA) :
    addSensorPhase rate p r d = d ∨
    (d.sensors.length < 5 ∧ ∃ ns nrow,
       nrow.length = d.joints.length ∧
       addSensorPhase rate p r d
         = { d with sensors := d.sensors ++ [ns],
                    sensorMotorWeights := d.sensorMotorWeights ++ [nrow] }) := by
  unfold addSensorPhase
  split
  case isTrue h => exact Or.inr ⟨h.2, _, _, by simp [length_mapIdx], rfl⟩
  case isFalse h => exact Or.inl rfl

/-- Case description of the add-branch phase: either a no-op, or (only
below the 8-segment cap) an appended segment, an appended joint and one
weight entry appended to every row. -/
theorem addBranch_cases (rate p : ℚ) (r : NewBranchRand) (d : DNA) :
    addBranchPhase rate p r d = d ∨
    (d.segments.length < 8 ∧ ∃ seg jnt,
       addBranchPhase rate p r d
         = { d with segments := d.segments ++ [seg],
                    joints := d.joints ++ [jnt],
                    sensorMotorWeights := mapIdx (fun s row => row ++
                      [({ amplitudeMod := ((r.w s).1 - 1/2) * 2,
                          frequencyMod := ((r.w s).2.1 - 1/2) * 1,
                          phaseMod := ((r.w s).2.2 - 1/2) * (1/2) } : SMWeight)])
                      d.sensorMotorWeights }) := by
  unfold addBranchPhase
  split
  case isTrue h => exact Or.inr ⟨h.2, _, _, rfl⟩
  case isFalse h => exact Or.inl rfl

/-- A randomness oracle firing only the segment mass trial. -/
def massMutRand : MutRand :=
  { noMutRand with seg := fun _ => { noSegRand with pMass := 0, rMass := 1 } }

/-- C10 counterexample: mutateDNA does perturb entries in place, so an
input entry need not be present at its index in the output.  With a rate
of 0.15 and a draw firing only the mass trial of segment 0, the output
segment 0 has mass 1.25 instead of 1 and so differs from the input
segment 0. -/
theorem claim_C10_counterexample :
    ¬ (mutateDNA dSmall (3/20) massMutRand).segments[0]?
      = dSmall.segments[0]? := by
  simp [mutateDNA, mutateCore, cloneDNA, addSensorPhase, addBranchPhase,
    mapIdx, mapIdxFrom, mutateSegment, dSmall, segDefault, massMutRand, noMutRand,
    noSegRand, noJointRand, noSensorRand, noWRand, noNewSensorRand, noNewBranchRand,
    mutateJoint, mutateSensor, mutateWeight, jointDefault, sensorDefault, w0, clamp]
  norm_num [Segment.mk.injEq]

/-- C10 amended: mutateDNA never removes or reorders existing structure:
the segment, joint, sensor and weight lists only ever grow by appending,
per call at most one sensor is appended and only while there are fewer
than 5 sensors, and at most one segment together with exactly one joint is
appended and only while there are fewer than 8 segments; every
pre-existing index keeps the (possibly field-perturbed) descendant of the
input entry, with identity and topology fields (segment id, parentId,
shape, attachAngle, isHeart, isMouth; joint segA, segB, attachment points,
length bounds; sensor id, type, segmentId) unchanged, and every
pre-existing weight row keeps its length up to the appended column. -/
theorem claim_C10_amended (d : DNA) (rate : ℚ) (r : MutRand) :
    (d.segments.length ≤ (mutateDNA d rate r).segments.length ∧
     (mutateDNA d rate r).segments.length ≤ d.segments.length + 1) ∧
    ((mutateDNA d rate r).segments.length = d.segments.length + 1 →
        d.segments.length < 8) ∧
    ((mutateDNA d rate r).joints.length
        = d.joints.length + ((mutateDNA d rate r).segments.length - d.segments.length)) ∧
    (d.sensors.length ≤ (mutateDNA d rate r).sensors.length ∧
     (mutateDNA d rate r).sensors.length ≤ d.sensors.length + 1) ∧
    ((mutateDNA d rate r).sensors.length = d.sensors.length + 1 →
        d.sensors.length < 5) ∧
    ((mutateDNA d rate r).sensorMotorWeights.length
        = d.sensorMotorWeights.length
          + ((mutateDNA d rate r).sensors.length - d.sensors.length)) ∧
    (∀ i, i < d.segments.length →
        SegKeeps (d.segments.getD i segDefault)
          ((mutateDNA d rate r).segments.getD i segDefault)) ∧
    (∀ i, i < d.joints.length →
        JointKeeps (d.joints.getD i jointDefault)
          ((mutateDNA d rate r).joints.getD i jointDefault)) ∧
    (∀ i, i < d.sensors.length →
        SensorKeeps (d.sensors.getD i sensorDefault)
          ((mutateDNA d rate r).sensors.getD i sensorDefault)) ∧
    (∀ s, s < d.sensorMotorWeights.length →
        ((mutateDNA d rate r).sensorMotorWeights.getD s []).length
          = (d.sensorMotorWeights.getD s []).length
            + ((mutateDNA d rate r).joints.length - d.joints.length)) := by
  have hAseg := mutateCore_segments rate r d
  have hAjoints := mutateCore_joints rate r d
  have hAsen := mutateCore_sensors rate r d
  have hAW := mutateCore_weights rate r d
  set A := mutateCore rate r d with hAdef
  set S := addSensorPhase rate r.pAddSensor r.newSensor A with hSdef
  have hB : mutateDNA d rate r = addBranchPhase rate r.pAddBranch r.newBranch S := rfl
  have lAseg : A.segments.length = d.segments.length := by rw [hAseg, length_mapIdx]
  have lAjoints : A.joints.length = d.joints.length := by rw [hAjoints, length_mapIdx]
  have lAsen : A.sensors.length = d.sensors.length := by rw [hAsen, length_mapIdx]
  have lAW : A.sensorMotorWeights.length = d.sensorMotorWeights.length := by
    rw [hAW, length_mapIdx]
  have hSseg : S.segments = A.segments := by
    rcases addSensor_cases rate r.pAddSensor r.newSensor A with h | ⟨-, ns, nrow, -, h⟩ <;>
      rw [hSdef, h]
  have hSjoints : S.joints = A.joints := by
    rcases addSensor_cases rate r.pAddSensor r.newSensor A with h | ⟨-, ns, nrow, -, h⟩ <;>
      rw [hSdef, h]
  obtain ⟨st, wt, hSsen, hSW, hstw, hst1, hst5⟩ :
      ∃ (st : List Sensor) (wt : List (List SMWeight)),
        S.sensors = A.sensors ++ st ∧
        S.sensorMotorWeights = A.sensorMotorWeights ++ wt ∧
        wt.length = st.length ∧ st.length ≤ 1 ∧
        (st.length = 1 → A.sensors.length < 5) := by
    rcases addSensor_cases rate r.pAddSensor r.newSensor A with h | ⟨h5, ns, nrow, -, h⟩
    · exact ⟨[], [], by rw [hSdef, h, List.append_nil],
        by rw [hSdef, h, List.append_nil], rfl, by simp, by simp⟩
    · exact ⟨[ns], [nrow], by rw [hSdef, h], by rw [hSdef, h], rfl, by simp, fun _ => h5⟩
  have lSseg : S.segments.length = d.segments.length := by rw [hSseg, lAseg]
  have lSjoints : S.joints.length = d.joints.length := by rw [hSjoints, lAjoints]
  have lSsen : S.sensors.length = d.sensors.length + st.length := by
    rw [hSsen, List.length_append, lAsen]
  have lSW : S.sensorMotorWeights.length = d.sensorMotorWeights.length + st.length := by
    rw [hSW, List.length_append, lAW, hstw]
  -- the getD facts below the existing indices, at the sensor stage
  have gSseg : ∀ i, i < d.segments.length →
      S.segments.getD i segDefault
        = mutateSegment rate d.beauty (r.seg i) (d.segments.getD i segDefault) := by
    intro i hi
    rw [hSseg, hAseg, getD_mapIdx _ _ _ hi segDefault segDefault]
  have gSjoints : ∀ i, i < d.joints.length →
      S.joints.getD i jointDefault
        = mutateJoint rate (r.joint i) (d.joints.getD i jointDefault) := by
    intro i hi
    rw [hSjoints, hAjoints, getD_mapIdx _ _ _ hi jointDefault jointDefault]
  have gSsen : ∀ i, i < d.sensors.length →
      S.sensors.getD i sensorDefault
        = mutateSensor rate (r.sensor i) (d.sensors.getD i sensorDefault) := by
    intro i hi
    rw [hSsen, getD_append_left (by omega : i < A.sensors.length), hAsen,
      getD_mapIdx _ _ _ hi sensorDefault sensorDefault]
  have gSW : ∀ s, s < d.sensorMotorWeights.length →
      (S.sensorMotorWeights.getD s []).length
        = (d.sensorMotorWeights.getD s []).length := by
    intro s hs
    rw [hSW, getD_append_left (by omega : s < A.sensorMotorWeights.length), hAW,
      getD_mapIdx _ _ _ hs [] [], length_mapIdx]
  rcases addBranch_cases rate r.pAddBranch r.newBranch S with hb | ⟨h8, seg, jnt, hb⟩
  · rw [hB, hb]
    refine ⟨⟨by omega, by omega⟩, by omega, by omega, ⟨by omega, by omega⟩,
      ?_, by omega, ?_, ?_, ?_, ?_⟩
    · intro h1
      exact lAsen ▸ hst5 (by omega)
    · intro i hi
      rw [gSseg i hi]
      exact segKeeps_mutateSegment rate d.beauty (r.seg i) _
    · intro i hi
      rw [gSjoints i hi]
      exact jointKeeps_mutateJoint rate (r.joint i) _
    · intro i hi
      rw [gSsen i hi]
      exact sensorKeeps_mutateSensor rate (r.sensor i) _
    · intro s hs
      rw [gSW s hs]
      omega
  · rw [hB, hb]
    have lBseg : (S.segments ++ [seg]).length = d.segments.length + 1 := by
      rw [List.length_append, lSseg]; simp
    have lBjoints : (S.joints ++ [jnt]).length = d.joints.length + 1 := by
      rw [List.length_append, lSjoints]; simp
    refine ⟨⟨by simp [lBseg], by simp [lBseg]⟩, ?_, ?_, ⟨by simp [lSsen], by simp [lSsen]; omega⟩,
      ?_, ?_, ?_, ?_, ?_, ?_⟩
    · intro _
      rw [lSseg] at h8
      exact h8
    · simp only [lBseg, lBjoints, length_mapIdx]
      omega
    · intro h1
      simp only at h1
      exact lAsen ▸ hst5 (by omega)
    · simp only [length_mapIdx, lSW, lSsen]
      omega
    · intro i hi
      simp only
      rw [getD_append_left (by omega : i < S.segments.length), gSseg i hi]
      exact segKeeps_mutateSegment rate d.beauty (r.seg i) _
    · intro i hi
      simp only
      rw [getD_append_left (by omega : i < S.joints.length), gSjoints i hi]
      exact jointKeeps_mutateJoint rate (r.joint i) _
    · intro i hi
      simp only
      rw [gSsen i hi]
      exact sensorKeeps_mutateSensor rate (r.sensor i) _
    · intro s hs
      simp only
      rw [getD_mapIdx _ _ _ (by omega : s < S.sensorMotorWeights.length) [] []]
      simp only [List.length_append, lBjoints, lBseg, List.length_singleton]
      rw [gSW s hs]
      omega

/-- C10 witness: on a one-segment genome with only the mass trial firing,
the segment count grows by at most one and segment 0 keeps its identity
fields. -/
theorem claim_C10_witness :
    (mutateDNA dSmall (3/20) massMutRand).segments.length
      ≤ dSmall.segments.length + 1 ∧
    SegKeeps (dSmall.segments.getD 0 segDefault)
      ((mutateDNA dSmall (3/20) massMutRand).segments.getD 0 segDefault) :=
  ⟨(claim_C10_amended dSmall (3/20) massMutRand).1.2,
   (claim_C10_amended dSmall (3/20) massMutRand).2.2.2.2.2.2.1 0 (by simp [dSmall])⟩

/-! ## Claim C8: sensor activation and the scan loop -/

theorem firstMinBy_ne_none (f : α → ℚ) (a : α) (l : List α) :
    firstMinBy f (a :: l) ≠ none := by
  cases hl : firstMinBy f l with
  | none => simp [firstMinBy, hl]
  | some c =>
    by_cases h : f c < f a <;> simp [firstMinBy, hl, h]

theorem firstMinBy_eq_none {f : α → ℚ} {l : List α} (h : firstMinBy f l = none) :
    l = [] := by
  cases l with
  | nil => rfl
  | cons a l => exact absurd h (firstMinBy_ne_none f a l)

theorem firstMinBy_mem (f : α → ℚ) {l : List α} {b : α} (h : firstMinBy f l = some b) :
    b ∈ l := by
  induction l generalizing b with
  | nil => cases h
  | cons a l ih =>
    cases hl : firstMinBy f l with
    | none =>
      simp only [firstMinBy, hl] at h
      obtain rfl := Option.some.inj h
      exact List.mem_cons_self a l
    | some c =>
      simp only [firstMinBy, hl] at h
      by_cases hc : f c < f a
      · rw [if_pos hc] at h
        obtain rfl := Option.some.inj h
        exact List.mem_cons_of_mem a (ih hl)
      · rw [if_neg hc] at h
        obtain rfl := Option.some.inj h
        exact List.mem_cons_self a l

theorem firstMinBy_le (f : α → ℚ) {l : List α} {b : α} (h : firstMinBy f l = some b) :
    ∀ x ∈ l, f b ≤ f x := by
  induction l generalizing b with
  | nil => cases h
  | cons a l ih =>
    intro x hx
    cases hl : firstMinBy f l with
    | none =>
      simp only [firstMinBy, hl] at h
      obtain rfl := Option.some.inj h
      obtain rfl := firstMinBy_eq_none hl
      simp only [List.mem_singleton] at hx
      subst hx
      exact le_refl _
    | some c =>
      simp only [firstMinBy, hl] at h
      rcases List.mem_cons.mp hx with hxa | hxl
      · rw [hxa]
        by_cases hc : f c < f a
        · rw [if_pos hc] at h
          obtain rfl := Option.some.inj h
          exact le_of_lt hc
        · rw [if_neg hc] at h
          obtain rfl := Option.some.inj h
          exact le_refl _
      · by_cases hc : f c < f a
        · rw [if_pos hc] at h
          obtain rfl := Option.some.inj h
          exact ih hl x hxl
        · rw [if_neg hc] at h
          obtain rfl := Option.some.inj h
          exact le_trans (not_lt.mp hc) (ih hl x hxl)

theorem firstMinBy_filter_lt (f : α → ℚ) (θ : ℚ) {l : List α} {b : α}
    (h : firstMinBy f l = some b) (hb : f b < θ) :
    firstMinBy f (l.filter (fun x => decide (f x < θ))) = some b := by
  induction l generalizing b with
  | nil => cases h
  | cons a l ih =>
    cases hl : firstMinBy f l with
    | none =>
      simp only [firstMinBy, hl] at h
      obtain rfl := Option.some.inj h
      obtain rfl := firstMinBy_eq_none hl
      simp only [List.filter_cons, List.filter_nil]
      rw [if_pos (by simpa using hb)]
      rfl
    | some c =>
      simp only [firstMinBy, hl] at h
      by_cases hc : f c < f a
      · rw [if_pos hc] at h
        obtain rfl := Option.some.inj h
        simp only [List.filter_cons]
        by_cases ha : f a < θ
        · rw [if_pos (by simpa using ha)]
          have hrec := ih hl hb
          cases hfl : firstMinBy f (l.filter (fun x => decide (f x < θ))) with
          | none => rw [hfl] at hrec; cases hrec
          | some c2 =>
            rw [hfl] at hrec
            obtain rfl := Option.some.inj hrec
            simp only [firstMinBy, hfl]
            rw [if_pos hc]
        · rw [if_neg (by simpa using ha)]
          exact ih hl hb
      · rw [if_neg hc] at h
        obtain rfl := Option.some.inj h
        simp only [List.filter_cons]
        rw [if_pos (by simpa using hb)]
        cases hfl : firstMinBy f (l.filter (fun x => decide (f x < θ))) with
        | none => simp only [firstMinBy, hfl]
        | some c2 =>
          simp only [firstMinBy, hfl]
          have hc2l : c2 ∈ l := List.mem_of_mem_filter (firstMinBy_mem f hfl)
          have h1 : f c ≤ f c2 := firstMinBy_le f hl c2 hc2l
          have h2 : f a ≤ f c := not_lt.mp hc
          rw [if_neg (not_lt.mpr (le_trans h2 h1))]

theorem filter_lt_eq_nil (f : α → ℚ) (θ : ℚ) {l : List α} {b : α}
    (h : firstMinBy f l = some b) (hb : θ ≤ f b) :
    l.filter (fun x => decide (f x < θ)) = [] := by
  rw [List.filter_eq_nil_iff]
  intro x hx
  have := firstMinBy_le f h x hx
  simp only [decide_eq_true_eq]
  exact not_lt.mpr (le_trans hb this)

theorem firstMinBy_cons_filter (f : α → ℚ) (a : α) (l : List α) :
    firstMinBy f (a :: l) =
      match firstMinBy f (l.filter (fun x => decide (f x < f a))) with
      | none => some a
      | some b => some b := by
  cases hl : firstMinBy f l with
  | none =>
    obtain rfl := firstMinBy_eq_none hl
    rfl
  | some c =>
    simp only [firstMinBy, hl]
    by_cases hc : f c < f a
    · rw [if_pos hc, firstMinBy_filter_lt f (f a) hl hc]
    · rw [if_neg hc, filter_lt_eq_nil f (f a) hl (not_lt.mp hc)]
      rfl

/-- One step of the scan loop, as a single gate: with the running closest
distance t at most the sensor range, the candidate is accepted exactly when
it is alive, passes the eye field-of-view test, and is strictly closer
than t. -/
theorem scanStep_spec (stype : SType) (range t bb : ℚ) (det : Bool) (c : Candidate)
    (ht : t ≤ range) :
    scanStep stype range (t, bb, det) c =
      if (c.alive && fovGate stype c && decide (c.distance < t)) = true
      then (c.distance, jsOr c.beauty (1/2), true)
      else (t, bb, det) := by
  unfold scanStep
  by_cases h1 : c.alive = false
  · rw [if_pos h1, if_neg (by simp [h1])]
  · have h1' : c.alive = true := by revert h1; cases c.alive <;> simp
    rw [if_neg (by simp [h1'])]
    by_cases h2 : c.distance > range
    · rw [if_pos h2]
      have hnd : ¬ c.distance < t := by linarith
      rw [if_neg (by simp [hnd])]
    · rw [if_neg h2]
      cases stype with
      | eye =>
        by_cases h3 : c.inFov = true
        · by_cases h4 : c.distance < t
          · rw [if_pos ⟨h3, h4⟩, if_pos (by simp [fovGate, h1', h3, h4])]
          · rw [if_neg (by intro hh; exact h4 hh.2), if_neg (by simp [h4])]
        · rw [if_neg (by intro hh; exact h3 hh.1), if_neg (by simp [fovGate, h3])]
      | feeler =>
        by_cases h4 : c.distance < t
        · rw [if_pos ⟨rfl, h4⟩, if_pos (by simp [fovGate, h1', h4])]
        · rw [if_neg (by intro hh; exact h4 hh.2), if_neg (by simp [h4])]

/-- The scan loop computes the first nearest candidate passing the gates
at the running threshold. -/
theorem scanCands_spec (stype : SType) (range : ℚ) :
    ∀ (cands : List Candidate) (t bb : ℚ) (det : Bool), t ≤ range →
      scanCands stype range cands (t, bb, det) =
        match firstMinBy Candidate.distance
            (cands.filter (fun x =>
              x.alive && fovGate stype x && decide (x.distance < t))) with
        | none => (t, bb, det)
        | some c => (c.distance, jsOr c.beauty (1/2), true) := by
  intro cands
  induction cands with
  | nil => intro t bb det ht; rfl
  | cons c cs ih =>
    intro t bb det ht
    simp only [scanCands, List.filter_cons]
    rw [scanStep_spec stype range t bb det c ht]
    by_cases hc : (c.alive && fovGate stype c && decide (c.distance < t)) = true
    · rw [if_pos hc, if_pos hc]
      have hct : c.distance < t := by
        simp only [Bool.and_eq_true, decide_eq_true_eq] at hc
        exact hc.2
      have ht' : c.distance ≤ range := le_trans (le_of_lt hct) ht
      rw [ih c.distance (jsOr c.beauty (1/2)) true ht']
      rw [firstMinBy_cons_filter]
      have hfilters :
          cs.filter (fun x =>
              x.alive && fovGate stype x && decide (x.distance < c.distance))
            = (cs.filter (fun x =>
                x.alive && fovGate stype x && decide (x.distance < t))).filter
                (fun x => decide (Candidate.distance x < Candidate.distance c)) := by
        rw [List.filter_filter]
        apply List.filter_congr
        intro x hx
        by_cases hxc : x.distance < c.distance
        · simp [hxc, lt_trans hxc hct]
        · simp [hxc]
      rw [← hfilters]
      cases hX : firstMinBy Candidate.distance
          (cs.filter (fun x =>
            x.alive && fovGate stype x && decide (x.distance < c.distance))) with
      | none => rfl
      | some c2 => rfl
    · rw [if_neg hc, if_neg hc]
      exact ih t bb det ht

/-- C8 counterexample: a living feeler candidate at distance 50 of range
100 with beauty exactly 0.  The claim formula gives activation
(1 - 50/100) x (1 + 0 x 0.3) = 0.5, but readSensor substitutes 0.5 for a
zero beauty (the JS idiom beauty || 0.5) and returns 0.575. -/
theorem claim_C8_counterexample :
    ¬ readSensor SType.feeler 100
        [{ alive := true, distance := 50, beauty := 0, inFov := true }]
      = min 1 ((1 - 50 / 100) * (1 + 0 * (3/10))) := by
  norm_num [readSensor, scanCands, scanStep, jsOr]

/-- C8 amended: for every sensor read, if no living creature lies strictly
within range (and, for eyes, inside the field of view), the activation is
0; otherwise it is (1 - closestDistance/range) x (1 + closestBeauty x 0.3)
clamped to 1, where closestDistance is the distance to the nearest
detected creature (first on ties) and closestBeauty is that creature
beauty when nonzero and 0.5 when its beauty is zero or missing. -/
theorem claim_C8_amended (stype : SType) (range : ℚ) (cands : List Candidate) :
    readSensor stype range cands = claimActivation stype range cands := by
  unfold readSensor claimActivation passGate
  rw [scanCands_spec stype range cands range 0 false (le_refl range)]
  cases hX : firstMinBy Candidate.distance
      (cands.filter (fun x =>
        x.alive && fovGate stype x && decide (x.distance < range))) with
  | none => rfl
  | some c => rfl

/-! ## Claim C2: evolveNextGeneration, elitism and population size -/

theorem length_insertByFitness (x : DNA) (l : List DNA) :
    (insertByFitness x l).length = l.length + 1 := by
  induction l with
  | nil => rfl
  | cons y ys ih =>
    unfold insertByFitness
    split
    · simp
    · simp [ih]

theorem length_sortByFitnessDesc (l : List DNA) :
    (sortByFitnessDesc l).length = l.length := by
  induction l with
  | nil => rfl
  | cons x xs ih =>
    simp [sortByFitnessDesc, length_insertByFitness, ih]

theorem perm_insertByFitness (x : DNA) (l : List DNA) :
    (insertByFitness x l).Perm (x :: l) := by
  induction l with
  | nil => exact List.Perm.refl _
  | cons y ys ih =>
    unfold insertByFitness
    split
    · exact List.Perm.refl _
    · exact List.Perm.trans (List.Perm.cons y ih) (List.Perm.swap x y ys)

theorem perm_sortByFitnessDesc (l : List DNA) :
    (sortByFitnessDesc l).Perm l := by
  induction l with
  | nil => exact List.Perm.refl _
  | cons x xs ih =>
    exact List.Perm.trans (perm_insertByFitness x (sortByFitnessDesc xs))
      (List.Perm.cons x ih)

theorem pairwise_insertByFitness (x : DNA) (l : List DNA)
    (h : l.Pairwise (fun a b => b.fitness ≤ a.fitness)) :
    (insertByFitness x l).Pairwise (fun a b => b.fitness ≤ a.fitness) := by
  induction l with
  | nil => simp [insertByFitness]
  | cons y ys ih =>
    obtain ⟨hy, hys⟩ := List.pairwise_cons.mp h
    unfold insertByFitness
    split
    case isTrue hxy =>
      apply List.Pairwise.cons
      · intro z hz
        rcases List.mem_cons.mp hz with rfl | hzys
        · exact hxy
        · exact le_trans (hy z hzys) hxy
      · exact h
    case isFalse hxy =>
      apply List.Pairwise.cons
      · intro z hz
        have hz2 := (perm_insertByFitness x ys).mem_iff.mp hz
        rcases List.mem_cons.mp hz2 with rfl | hzys
        · exact le_of_lt (not_le.mp hxy)
        · exact hy z hzys
      · exact ih hys

theorem sorted_sortByFitnessDesc (l : List DNA) :
    (sortByFitnessDesc l).Pairwise (fun a b => b.fitness ≤ a.fitness) := by
  induction l with
  | nil => exact List.Pairwise.nil
  | cons x xs ih => exact pairwise_insertByFitness x (sortByFitnessDesc xs) ih

theorem filter_insertByFitness (x : DNA) (l : List DNA) (f : ℚ) :
    (insertByFitness x l).filter (fun d => decide (d.fitness = f))
      = if x.fitness = f
        then x :: l.filter (fun d => decide (d.fitness = f))
        else l.filter (fun d => decide (d.fitness = f)) := by
  induction l with
  | nil =>
    by_cases hxf : x.fitness = f <;>
      simp [insertByFitness, List.filter_cons, hxf]
  | cons y ys ih =>
    unfold insertByFitness
    split
    case isTrue hxy =>
      by_cases hxf : x.fitness = f <;>
        simp [List.filter_cons, hxf]
    case isFalse hxy =>
      by_cases hxf : x.fitness = f
      · have hyf : ¬ y.fitness = f := by
          intro hyf
          exact hxy (le_of_eq (hyf.trans hxf.symm))
        simp [List.filter_cons, hxf, hyf, ih]
      · by_cases hyf : y.fitness = f <;>
          simp [List.filter_cons, hxf, hyf, ih]

theorem filter_sortByFitnessDesc (l : List DNA) (f : ℚ) :
    (sortByFitnessDesc l).filter (fun d => decide (d.fitness = f))
      = l.filter (fun d => decide (d.fitness = f)) := by
  induction l with
  | nil => rfl
  | cons x xs ih =>
    simp only [sortByFitnessDesc, List.filter_cons]
    rw [filter_insertByFitness, ih]
    by_cases hxf : x.fitness = f <;> simp [hxf]

/-- C2: for every nonempty population whose genomes carry the manager
current generation stamp and any configured eliteCount at most
populationSize, evolveNextGeneration returns exactly populationSize
genomes; the sorted list it ranks by is a permutation of the population,
descending in fitness and stable on ties (equal-fitness genomes keep their
array order); and each of the top eliteCount pre-call genomes reappears at
its rank with fitness reset to 0 and generation incremented by 1,
otherwise unchanged. -/
theorem claim_C2_evolve (pop : List DNA) (gen populationSize eliteCount : ℕ)
    (crossoverRate mutationRate : ℚ) (rand : ℕ → OffRand)
    (hne : pop ≠ []) (helite : eliteCount ≤ populationSize)
    (hgen : ∀ d ∈ pop, d.generation = gen) :
    (evolveNextGeneration pop gen populationSize eliteCount
        crossoverRate mutationRate rand).1.length = populationSize ∧
    (sortByFitnessDesc pop).Perm pop ∧
    (sortByFitnessDesc pop).Pairwise (fun a b => b.fitness ≤ a.fitness) ∧
    (∀ f : ℚ, (sortByFitnessDesc pop).filter (fun d => decide (d.fitness = f))
        = pop.filter (fun d => decide (d.fitness = f))) ∧
    (∀ i, i < min eliteCount pop.length →
      (evolveNextGeneration pop gen populationSize eliteCount
          crossoverRate mutationRate rand).1[i]?
        = some { (sortByFitnessDesc pop).getD i dnaDefault with
                   fitness := 0,
                   generation :=
                     ((sortByFitnessDesc pop).getD i dnaDefault).generation + 1 }) := by
  have hlen : (sortByFitnessDesc pop).length = pop.length := length_sortByFitnessDesc pop
  refine ⟨?_, perm_sortByFitnessDesc pop, sorted_sortByFitnessDesc pop,
    fun f => filter_sortByFitnessDesc pop f, ?_⟩
  · simp only [evolveNextGeneration, List.length_append, List.length_map,
      List.length_take, List.length_range, hlen]
    omega
  · intro i hi
    have hisort : i < (sortByFitnessDesc pop).length := by omega
    have hielite : i < ((sortByFitnessDesc pop).take eliteCount).length := by
      simp only [List.length_take]
      omega
    have hget : (sortByFitnessDesc pop)[i]?
        = some ((sortByFitnessDesc pop).getD i dnaDefault) := by
      rw [List.getD_eq_getElem?_getD, List.getElem?_eq_getElem hisort]
      rfl
    have hmem : (sortByFitnessDesc pop).getD i dnaDefault ∈ pop := by
      apply (perm_sortByFitnessDesc pop).mem_iff.mp
      exact mem_of_getElem?_eq_some hget
    simp only [evolveNextGeneration]
    rw [List.getElem?_append_left (by simpa using hielite),
      List.getElem?_map, List.getElem?_take_of_lt (by omega : i < eliteCount), hget]
    simp only [Option.map_some', cloneDNA]
    rw [hgen _ hmem]

def mkDNA (fit : ℚ) : DNA := { dnaDefault with fitness := fit }

def offRand0 : OffRand :=
  { pCross := 1, sel1 := (0, 0, 0), sel2 := (0, 0, 0), selA := (0, 0, 0),
    cross := crossRand0, mutr := noMutRand }

def popC2 : List DNA := [mkDNA 10, mkDNA 5, mkDNA 30, mkDNA 2]

/-- C2 witness: the population with fitness values 10, 5, 30, 2, elite
count 2 and population size 4 evolves into exactly 4 genomes whose first
entry is the fitness-30 genome with fitness reset and generation bumped. -/
theorem claim_C2_witness :
    (evolveNextGeneration popC2 0 4 2 (3/10) (3/20) (fun _ => offRand0)).1.length = 4 ∧
    (evolveNextGeneration popC2 0 4 2 (3/10) (3/20) (fun _ => offRand0)).1[0]?
      = some { (sortByFitnessDesc popC2).getD 0 dnaDefault with
                 fitness := 0,
                 generation :=
                   ((sortByFitnessDesc popC2).getD 0 dnaDefault).generation + 1 } := by
  have h := claim_C2_evolve popC2 0 4 2 (3/10) (3/20) (fun _ => offRand0)
    (by simp [popC2]) (by omega)
    (by
      intro d hd
      simp only [popC2, mkDNA, dnaDefault, List.mem_cons, List.mem_singleton] at hd
      rcases hd with rfl | rfl | rfl | rfl | h
      · rfl
      · rfl
      · rfl
      · rfl
      · cases h)
  exact ⟨h.1, h.2.2.2.2 0 (by simp [popC2])⟩

end Evo
